import Mathlib

/-!
Verification development for the Lumenless privacy vault program
(`src/solana-program/programs/solana-program/src/lib.rs`).

The program is embedded shallowly: account state is passed explicitly, every
cross-program invocation (CPI) is recorded as an `ExtCall` value, and an
oracle decides whether each CPI succeeds.  The `commit` wrapper expresses the
runtime's whole-transaction semantics: on error every attempted account
mutation is discarded and the pre-state is kept.
-/

namespace LumenlessVault

/-- A Solana public key: 32 raw bytes, modelled as a list of byte values. -/
structure Pubkey where
  bytes : List Nat
deriving DecidableEq

/-- Seed label for user vault PDAs: the byte string `b"vault"`. -/
def VAULT_SEED : List Nat := [118, 97, 117, 108, 116]

/-- Byte decoding of the declared program id
`LUMPd26Acz4wqS8EBuoxPN2zhwCUF4npbkrqhLbM9AL`. -/
def PROGRAM_ID : Pubkey :=
  ⟨[4, 252, 246, 61, 43, 202, 8, 218, 202, 159, 70, 255, 254, 17, 111, 209,
    108, 77, 115, 71, 161, 51, 166, 126, 203, 230, 39, 201, 47, 223, 254, 93]⟩

/-- SNS Name Service program id `namesLPneVptA9Z5rqUDD9tMTWEJwofgaYwp8cawRkX`. -/
def NAME_SERVICE_PROGRAM_ID : Pubkey :=
  ⟨[11, 173, 81, 244, 19, 193, 243, 169, 148, 96, 217, 0, 216, 191, 46, 214,
    146, 126, 202, 52, 215, 183, 132, 43, 248, 16, 169, 115, 8, 45, 30, 220]⟩

/-- SNS Records V2 program id `HP3D4D1ZCmohQGFVms2SS4LCANgJyksBf5s1F77FuFjZ`. -/
def SNS_RECORDS_PROGRAM_ID : Pubkey :=
  ⟨[243, 96, 67, 217, 255, 96, 154, 213, 150, 32, 207, 123, 211, 15, 67, 83,
    236, 6, 129, 182, 188, 147, 95, 211, 149, 236, 37, 100, 157, 16, 118, 220]⟩

/-- The system program id (the all-zero key). -/
def SYSTEM_PROGRAM_ID : Pubkey := ⟨List.replicate 32 0⟩

/-- The record-name byte string for the SOL record V2:
`[0x02, b'S', b'O', b'L']` (the `0x02` V2 class byte followed by "SOL"). -/
def SOL_RECORD_NAME : List Nat := [2, 83, 79, 76]

/-- Largest value of a Rust `u64`. -/
def U64_MAX : Nat := 2 ^ 64 - 1

/-- Rust `u64::checked_add` on in-range operands: `none` exactly when the
mathematical sum leaves the `u64` range. -/
def checkedAdd (x y : Nat) : Option Nat :=
  if x + y ≤ U64_MAX then some (x + y) else none

/-- Rust `u64::checked_sub` on in-range operands: `none` exactly when the
subtrahend exceeds the minuend. -/
def checkedSub (x y : Nat) : Option Nat :=
  if y ≤ x then some (x - y) else none

/-- Little-endian 4-byte encoding of a `u32` value (`u32::to_le_bytes`). -/
def u32le (n : Nat) : List Nat :=
  [n % 256, n / 256 % 256, n / 65536 % 256, n / 16777216 % 256]

/-- One entry of an instruction's account list. -/
structure AccountMeta where
  pubkey : Pubkey
  isSigner : Bool
  isWritable : Bool
deriving DecidableEq

/-- Rust `AccountMeta::new`: a writable account entry. -/
def AccountMeta.new (k : Pubkey) (s : Bool) : AccountMeta := ⟨k, s, true⟩

/-- Rust `AccountMeta::new_readonly`: a read-only account entry. -/
def AccountMeta.newReadonly (k : Pubkey) (s : Bool) : AccountMeta := ⟨k, s, false⟩

/-- A raw Solana instruction: target program, account list, data bytes. -/
structure Instruction where
  program_id : Pubkey
  accounts : List AccountMeta
  data : List Nat
deriving DecidableEq

/-- One external call issued by the program.  `invoke` forwards only ordinary
transaction signatures; `invokeSigned` additionally signs with the given PDA
seed group (the derivation proof); `transferChecked` is the anchor-spl token
transfer CPI; `ataCreate` is the associated-token-account creation performed
by the accounts machinery for an `init` token-account field. -/
inductive ExtCall where
  | invoke (ix : Instruction)
  | invokeSigned (ix : Instruction) (seeds : List (List Nat))
  | transferChecked (tokenProgram fromAcc toAcc authority mintAcc : Pubkey)
      (amount decimals : Nat) (seeds : Option (List (List Nat)))
  | ataCreate (payer ata authority mintAcc tokenProgram : Pubkey)
deriving DecidableEq

/-- The persisted per-user vault account (`UserVault` in the source):
owner key, PDA bump seed, and number of domains in custody. -/
structure UserVault where
  owner : Pubkey
  bump : Nat
  domains_count : Nat
deriving DecidableEq

/-- The program's own error codes (`VaultError` in the source). -/
inductive VaultError where
  | UnauthorizedAccess
  | NoDomains
deriving DecidableEq

/-- Errors an operation can end with: the program's own errors, the anchor
constraint failures, a propagated external-call failure (carrying the callee's
error code), and an arithmetic `unwrap` panic aborting the transaction. -/
inductive ProgError where
  | vaultError (e : VaultError)
  | constraintSeeds
  | accountNotInitialized
  | accountAlreadyInUse
  | externalFailure (code : Nat)
  | arithmeticPanic
deriving DecidableEq

/-- The runtime's `create_program_address`: recomputes a PDA from seeds and a program id,
possibly failing.  Left abstract (it is a hash), supplied as a parameter. -/
abbrev Cpa := List (List Nat) → Pubkey → Option Pubkey

/-- The runtime's `find_program_address`: canonical PDA and bump for a seed list. -/
abbrev Fpa := List (List Nat) → Pubkey → Pubkey × Nat

/-- Outcome oracle for the external services: the `k`-th CPI of an operation
returns `none` (success) or `some code` (failure with that error code). -/
abbrev Oracle := Nat → Option Nat

/-- The PDA signer seed group `[VAULT_SEED, owner, [bump]]` used whenever the
vault signs through its derivation proof (`signer_seeds` in the source). -/
def signerSeedsFor (ownerKey : Pubkey) (bump : Nat) : List (List Nat) :=
  [VAULT_SEED, ownerKey.bytes, [bump]]

/-- Result of one operation: on success the updated vault plus the list of
external calls issued; on failure the error plus the calls attempted up to
and including the failing one. -/
abbrev OpResult := Except (ProgError × List ExtCall) (UserVault × List ExtCall)

/-- A committed transaction outcome: post-state of the vault account, the
external calls the operation attempted, and the reported error if any. -/
structure Outcome where
  vault : Option UserVault
  calls : List ExtCall
  err : Option ProgError
deriving DecidableEq

/-- Whole-transaction semantics: a failed operation leaves the vault account
exactly as it was before the transaction. -/
def commit (pre : Option UserVault) (r : OpResult) : Outcome :=
  match r with
  | .ok (v, cs) => ⟨some v, cs, none⟩
  | .error (e, cs) => ⟨pre, cs, some e⟩

/-- Shared accounts validation for every vault operation (the anchor
`#[account(mut, seeds = [VAULT_SEED, owner.key()], bump = vault.bump,
has_one = owner @ VaultError::UnauthorizedAccess)]` constraint block):
deserialize the vault account, re-derive its address from the fixed seed, the
caller's key and the stored bump (failing with `ConstraintSeeds` on
mismatch), then check the stored owner against the caller (failing with
`UnauthorizedAccess`). -/
def checkVaultAccess (cpa : Cpa) (ownerKey vaultAddr : Pubkey)
    (acct : Option UserVault) : Except ProgError UserVault :=
  match acct with
  | none => .error .accountNotInitialized
  | some v =>
    match cpa [VAULT_SEED, ownerKey.bytes, [v.bump]] PROGRAM_ID with
    | none => .error .constraintSeeds
    | some k =>
      if k = vaultAddr then
        if v.owner = ownerKey then .ok v
        else .error (.vaultError .UnauthorizedAccess)
      else .error .constraintSeeds

/-- Runs an operation body after the shared vault accounts validation; a
validation failure aborts before any external call. -/
def guarded (cpa : Cpa) (ownerKey vaultAddr : Pubkey) (acct : Option UserVault)
    (body : UserVault → OpResult) : OpResult :=
  match checkVaultAccess cpa ownerKey vaultAddr acct with
  | .error e => .error (e, [])
  | .ok v => body v

/-- The SNS name-registry ownership transfer instruction, as built three
times in the source: data `[2] ++ new_owner`, accounts
`[name_account(mut), current_owner(readonly signer)]`. -/
def nameTransferIx (nameAccount newOwner currentOwner : Pubkey) : Instruction :=
  { program_id := NAME_SERVICE_PROGRAM_ID
    accounts := [AccountMeta.new nameAccount false,
                 AccountMeta.newReadonly currentOwner true]
    data := 2 :: newOwner.bytes }

/-- Step 2 of `deposit_domain_with_record`: the `allocateAndPostRecord`
(tag 1) instruction of the SNS Records V2 program. -/
def allocateRecordIx (ownerKey solRecord nameAccount vaultKey centralState :
    Pubkey) : Instruction :=
  { program_id := SNS_RECORDS_PROGRAM_ID
    accounts := [AccountMeta.newReadonly SYSTEM_PROGRAM_ID false,
                 AccountMeta.newReadonly NAME_SERVICE_PROGRAM_ID false,
                 AccountMeta.new ownerKey true,
                 AccountMeta.new solRecord false,
                 AccountMeta.new nameAccount false,
                 AccountMeta.new vaultKey true,
                 AccountMeta.newReadonly centralState false]
    data := 1 :: (u32le SOL_RECORD_NAME.length ++ SOL_RECORD_NAME
      ++ u32le vaultKey.bytes.length ++ vaultKey.bytes) }

/-- Step 3 of `deposit_domain_with_record`: the `writeRoa` (tag 6)
instruction, whose roaId is the vault's own address. -/
def writeRoaIx (ownerKey solRecord nameAccount vaultKey centralState :
    Pubkey) : Instruction :=
  { program_id := SNS_RECORDS_PROGRAM_ID
    accounts := [AccountMeta.newReadonly SYSTEM_PROGRAM_ID false,
                 AccountMeta.newReadonly NAME_SERVICE_PROGRAM_ID false,
                 AccountMeta.new ownerKey true,
                 AccountMeta.new solRecord false,
                 AccountMeta.new nameAccount false,
                 AccountMeta.new vaultKey true,
                 AccountMeta.newReadonly centralState false]
    data := 6 :: (u32le 32 ++ vaultKey.bytes) }

/-- Step 4 of `deposit_domain_with_record`: the `validateSolanaSignature`
(tag 3) instruction with the staleness flag set; the vault key appears at
position 5 as a non-signer (domain owner) and at position 7 as a signer
(verifier). -/
def validateIx (ownerKey solRecord nameAccount vaultKey centralState :
    Pubkey) : Instruction :=
  { program_id := SNS_RECORDS_PROGRAM_ID
    accounts := [AccountMeta.newReadonly SYSTEM_PROGRAM_ID false,
                 AccountMeta.newReadonly NAME_SERVICE_PROGRAM_ID false,
                 AccountMeta.new ownerKey true,
                 AccountMeta.new solRecord false,
                 AccountMeta.new nameAccount false,
                 AccountMeta.new vaultKey false,
                 AccountMeta.newReadonly centralState false,
                 AccountMeta.new vaultKey true]
    data := [3, 1] }

/-- Entry point `initialize_vault`: the anchor `init` account allocates the vault at the
canonical PDA of `[VAULT_SEED, owner.key()]` (failing when storage is already
allocated there), then the handler sets `owner`, `bump` and
`domains_count = 0`. -/
def initialize_vault (fpa : Fpa) (ownerKey suppliedVault : Pubkey)
    (acct : Option UserVault) : OpResult :=
  let pd := fpa [VAULT_SEED, ownerKey.bytes] PROGRAM_ID
  if suppliedVault = pd.1 then
    match acct with
    | some _ => .error (.accountAlreadyInUse, [])
    | none => .ok (⟨ownerKey, pd.2, 0⟩, [])
  else .error (.constraintSeeds, [])

/-- Entry point `deposit_domain`: transfer the domain NFT from the user's token account
to the vault's (amount 1, 0 decimals, the user's ordinary signature), then
increment `domains_count` with `checked_add(1).unwrap()`. -/
def deposit_domain (cpa : Cpa) (oracle : Oracle)
    (ownerKey vaultAddr mintKey userTokenAccount vaultTokenAccount
      tokenProgramKey : Pubkey) (acct : Option UserVault) : OpResult :=
  guarded cpa ownerKey vaultAddr acct fun v =>
    let c := ExtCall.transferChecked tokenProgramKey userTokenAccount
      vaultTokenAccount ownerKey mintKey 1 0 none
    match oracle 0 with
    | some code => .error (.externalFailure code, [c])
    | none =>
      match checkedAdd v.domains_count 1 with
      | none => .error (.arithmeticPanic, [c])
      | some n => .ok ({ v with domains_count := n }, [c])

/-- Entry point `withdraw_domain`: require `domains_count > 0` (else `NoDomains`),
transfer the NFT back to the user with the vault PDA signing through its
seed group, then decrement with `checked_sub(1).unwrap()`. -/
def withdraw_domain (cpa : Cpa) (oracle : Oracle)
    (ownerKey vaultAddr mintKey userTokenAccount vaultTokenAccount
      tokenProgramKey : Pubkey) (acct : Option UserVault) : OpResult :=
  guarded cpa ownerKey vaultAddr acct fun v =>
    if 0 < v.domains_count then
      let c := ExtCall.transferChecked tokenProgramKey vaultTokenAccount
        userTokenAccount vaultAddr mintKey 1 0
        (some (signerSeedsFor ownerKey v.bump))
      match oracle 0 with
      | some code => .error (.externalFailure code, [c])
      | none =>
        match checkedSub v.domains_count 1 with
        | none => .error (.arithmeticPanic, [c])
        | some n => .ok ({ v with domains_count := n }, [c])
    else .error (.vaultError .NoDomains, [])

/-- Entry point `deposit_unwrapped_domain`: transfer name-registry ownership to the vault
(new owner = vault key, the user signs as current owner), then increment
`domains_count`. -/
def deposit_unwrapped_domain (cpa : Cpa) (oracle : Oracle)
    (ownerKey vaultAddr nameAccount : Pubkey) (acct : Option UserVault) :
    OpResult :=
  guarded cpa ownerKey vaultAddr acct fun v =>
    let c := ExtCall.invoke (nameTransferIx nameAccount vaultAddr ownerKey)
    match oracle 0 with
    | some code => .error (.externalFailure code, [c])
    | none =>
      match checkedAdd v.domains_count 1 with
      | none => .error (.arithmeticPanic, [c])
      | some n => .ok ({ v with domains_count := n }, [c])

/-- Entry point `withdraw_unwrapped_domain`: require `domains_count > 0` (else
`NoDomains`), transfer name-registry ownership back to the user with the
vault PDA signing as current owner through its seed group, then decrement. -/
def withdraw_unwrapped_domain (cpa : Cpa) (oracle : Oracle)
    (ownerKey vaultAddr nameAccount : Pubkey) (acct : Option UserVault) :
    OpResult :=
  guarded cpa ownerKey vaultAddr acct fun v =>
    if 0 < v.domains_count then
      let c := ExtCall.invokeSigned (nameTransferIx nameAccount ownerKey vaultAddr)
        (signerSeedsFor ownerKey v.bump)
      match oracle 0 with
      | some code => .error (.externalFailure code, [c])
      | none =>
        match checkedSub v.domains_count 1 with
        | none => .error (.arithmeticPanic, [c])
        | some n => .ok ({ v with domains_count := n }, [c])
    else .error (.vaultError .NoDomains, [])

/-- Entry point `init_vault_token_account`: after the shared vault validation the
accounts machinery creates the vault's associated token account for the given
mint; the handler only logs, leaving the vault untouched. -/
def init_vault_token_account (cpa : Cpa) (oracle : Oracle)
    (ownerKey vaultAddr tokenMint vaultTokenAccount tokenProgramKey : Pubkey)
    (acct : Option UserVault) : OpResult :=
  guarded cpa ownerKey vaultAddr acct fun v =>
    let c := ExtCall.ataCreate ownerKey vaultTokenAccount vaultAddr tokenMint
      tokenProgramKey
    match oracle 0 with
    | some code => .error (.externalFailure code, [c])
    | none => .ok (v, [c])

/-- Entry point `deposit_domain_with_record`: the four-step orchestration.  Step 1
transfers domain ownership to the vault (user signs); steps 2-4 are Records
V2 calls signed by the vault through its seed group; only after all four CPIs
succeed is `domains_count` incremented. -/
def deposit_domain_with_record (cpa : Cpa) (oracle : Oracle)
    (ownerKey vaultAddr nameAccount solRecord centralState : Pubkey)
    (acct : Option UserVault) : OpResult :=
  guarded cpa ownerKey vaultAddr acct fun v =>
    let seeds := signerSeedsFor ownerKey v.bump
    let c1 := ExtCall.invoke (nameTransferIx nameAccount vaultAddr ownerKey)
    let c2 := ExtCall.invokeSigned
      (allocateRecordIx ownerKey solRecord nameAccount vaultAddr centralState) seeds
    let c3 := ExtCall.invokeSigned
      (writeRoaIx ownerKey solRecord nameAccount vaultAddr centralState) seeds
    let c4 := ExtCall.invokeSigned
      (validateIx ownerKey solRecord nameAccount vaultAddr centralState) seeds
    match oracle 0 with
    | some code => .error (.externalFailure code, [c1])
    | none =>
    match oracle 1 with
    | some code => .error (.externalFailure code, [c1, c2])
    | none =>
    match oracle 2 with
    | some code => .error (.externalFailure code, [c1, c2, c3])
    | none =>
    match oracle 3 with
    | some code => .error (.externalFailure code, [c1, c2, c3, c4])
    | none =>
      match checkedAdd v.domains_count 1 with
      | none => .error (.arithmeticPanic, [c1, c2, c3, c4])
      | some n => .ok ({ v with domains_count := n }, [c1, c2, c3, c4])

/-- One invocation of a custody-affecting entry point, carrying its own CPI
oracle and auxiliary account keys. -/
inductive Step where
  | depositWrapped (oracle : Oracle)
      (mintKey userTokenAccount vaultTokenAccount tokenProgramKey : Pubkey)
  | withdrawWrapped (oracle : Oracle)
      (mintKey userTokenAccount vaultTokenAccount tokenProgramKey : Pubkey)
  | depositUnwrapped (oracle : Oracle) (nameAccount : Pubkey)
  | withdrawUnwrapped (oracle : Oracle) (nameAccount : Pubkey)
  | depositWithRecord (oracle : Oracle)
      (nameAccount solRecord centralState : Pubkey)
  | initTokenAccount (oracle : Oracle)
      (tokenMint vaultTokenAccount tokenProgramKey : Pubkey)

/-- Dispatches a step to the corresponding entry point. -/
def stepOp (cpa : Cpa) (ownerKey vaultAddr : Pubkey) (acct : Option UserVault) :
    Step → OpResult
  | .depositWrapped o m u t tp =>
      deposit_domain cpa o ownerKey vaultAddr m u t tp acct
  | .withdrawWrapped o m u t tp =>
      withdraw_domain cpa o ownerKey vaultAddr m u t tp acct
  | .depositUnwrapped o n =>
      deposit_unwrapped_domain cpa o ownerKey vaultAddr n acct
  | .withdrawUnwrapped o n =>
      withdraw_unwrapped_domain cpa o ownerKey vaultAddr n acct
  | .depositWithRecord o n r c =>
      deposit_domain_with_record cpa o ownerKey vaultAddr n r c acct
  | .initTokenAccount o m t tp =>
      init_vault_token_account cpa o ownerKey vaultAddr m t tp acct

/-- Marks the three deposit entry points. -/
def stepIsDeposit : Step → Bool
  | .depositWrapped _ _ _ _ _ => true
  | .depositUnwrapped _ _ => true
  | .depositWithRecord _ _ _ _ => true
  | _ => false

/-- Marks the two withdraw entry points. -/
def stepIsWithdraw : Step → Bool
  | .withdrawWrapped _ _ _ _ _ => true
  | .withdrawUnwrapped _ _ => true
  | _ => false

/-- Runs a sequence of steps against one vault, committing each transaction
in turn; returns the final vault state together with the number of
successful deposits and of successful withdrawals. -/
def runSteps (cpa : Cpa) (ownerKey vaultAddr : Pubkey) :
    Option UserVault → List Step → Option UserVault × Nat × Nat
  | acct, [] => (acct, 0, 0)
  | acct, s :: rest =>
    let o := commit acct (stepOp cpa ownerKey vaultAddr acct s)
    let r := runSteps cpa ownerKey vaultAddr o.vault rest
    match o.err with
    | some _ => r
    | none => (r.1, r.2.1 + (if stepIsDeposit s then 1 else 0),
               r.2.2 + (if stepIsWithdraw s then 1 else 0))

/-- Shorthand for the committed outcome of `deposit_domain_with_record`. -/
def recordOutcome (cpa : Cpa) (oracle : Oracle)
    (ownerKey vaultAddr nameAccount solRecord centralState : Pubkey)
    (acct : Option UserVault) : Outcome :=
  commit acct (deposit_domain_with_record cpa oracle ownerKey vaultAddr
    nameAccount solRecord centralState acct)

/-! ## Concrete values used by the witness theorems -/

/-- A concrete 32-byte key filled with one byte value. -/
def pkW (b : Nat) : Pubkey := ⟨List.replicate 32 b⟩

/-- A concrete owner key. -/
def okW : Pubkey := pkW 1

/-- A concrete vault address. -/
def vaW : Pubkey := pkW 2

/-- A concrete PDA recomputation that always yields the vault address. -/
def cpaW : Cpa := fun _ _ => some vaW

/-- A concrete canonical PDA search yielding the vault address and bump 7. -/
def fpaW : Fpa := fun _ _ => (vaW, 7)

/-- An oracle under which every external call succeeds. -/
def oracleW : Oracle := fun _ => none

/-- An oracle under which the third external call fails with code 42. -/
def oracleFail2W : Oracle := fun k => if k = 2 then some 42 else none

/-- A well-formed vault holding three domains. -/
def vOkW : UserVault := ⟨okW, 7, 3⟩

/-- A well-formed vault whose counter sits at the `u64` maximum. -/
def vMaxW : UserVault := ⟨okW, 7, U64_MAX⟩

/-- A vault whose stored owner differs from the caller `okW`. -/
def vBadW : UserVault := ⟨pkW 9, 7, 3⟩

/-! ## Helper lemmas -/

/-- The shared accounts validation only ever returns the stored vault value. -/
theorem checkVaultAccess_some_eq (cpa : Cpa) (ownerKey vaultAddr : Pubkey)
    (v w : UserVault)
    (h : checkVaultAccess cpa ownerKey vaultAddr (some v) = .ok w) : w = v := by
  simp only [checkVaultAccess] at h
  split at h
  · exact absurd h (by simp)
  · split at h
    · split at h
      · injection h with h
        exact h.symm
      · exact absurd h (by simp)
    · exact absurd h (by simp)

/-- The shared accounts validation characterised on a present vault account:
it succeeds exactly when the address re-derives and the stored owner is the
caller. -/
theorem checkVaultAccess_ok_iff (cpa : Cpa) (ownerKey vaultAddr : Pubkey)
    (v : UserVault) :
    checkVaultAccess cpa ownerKey vaultAddr (some v) = .ok v ↔
      cpa [VAULT_SEED, ownerKey.bytes, [v.bump]] PROGRAM_ID = some vaultAddr ∧
      v.owner = ownerKey := by
  simp only [checkVaultAccess]
  rcases hc : cpa [VAULT_SEED, ownerKey.bytes, [v.bump]] PROGRAM_ID with _ | k
  · simp
  · by_cases hk : k = vaultAddr
    · by_cases ho : v.owner = ownerKey
      · simp [hk, ho]
      · simp [hk, ho]
    · simp only [if_neg hk]
      constructor
      · intro h
        exact absurd h (by simp)
      · rintro ⟨h, -⟩
        injection h with h
        exact absurd h hk

/-- On a present vault account the validation rejects a wrong caller or a
non-re-deriving address, with `ConstraintSeeds` taking priority over
`UnauthorizedAccess` (anchor evaluates the `seeds` constraint first). -/
theorem checkVaultAccess_reject (cpa : Cpa) (ownerKey vaultAddr : Pubkey)
    (v : UserVault)
    (h : v.owner ≠ ownerKey ∨
      cpa [VAULT_SEED, ownerKey.bytes, [v.bump]] PROGRAM_ID ≠ some vaultAddr) :
    ∃ e, checkVaultAccess cpa ownerKey vaultAddr (some v) = .error e ∧
      ((cpa [VAULT_SEED, ownerKey.bytes, [v.bump]] PROGRAM_ID = some vaultAddr ∧
          e = .vaultError .UnauthorizedAccess) ∨
       (cpa [VAULT_SEED, ownerKey.bytes, [v.bump]] PROGRAM_ID ≠ some vaultAddr ∧
          e = .constraintSeeds)) := by
  simp only [checkVaultAccess]
  rcases hc : cpa [VAULT_SEED, ownerKey.bytes, [v.bump]] PROGRAM_ID with _ | k
  · exact ⟨.constraintSeeds, rfl, .inr ⟨by simp, rfl⟩⟩
  · by_cases hk : k = vaultAddr
    · subst hk
      rcases h with ho | hd
      · refine ⟨.vaultError .UnauthorizedAccess, ?_, .inl ⟨rfl, rfl⟩⟩
        simp [ho]
      · exact absurd hc hd
    · refine ⟨.constraintSeeds, by simp [hk], .inr ⟨?_, rfl⟩⟩
      intro hs
      exact hk (Option.some_injective _ hs)

/-- Validation errors are never the arithmetic panic. -/
theorem checkVaultAccess_error_ne_panic (cpa : Cpa) (ownerKey vaultAddr : Pubkey)
    (acct : Option UserVault) (e : ProgError)
    (h : checkVaultAccess cpa ownerKey vaultAddr acct = .error e) :
    e ≠ .arithmeticPanic := by
  rcases acct with _ | v <;> simp only [checkVaultAccess] at h
  · injection h with h
    subst h
    intro hx
    cases hx
  · split at h
    · injection h with h
      subst h
      intro hx
      cases hx
    · split at h
      · split at h
        · exact absurd h (by simp)
        · injection h with h
          subst h
          intro hx
          cases hx
      · injection h with h
        subst h
        intro hx
        cases hx

/-- A failed validation commits to the pre-state with no external call. -/
theorem commit_guarded_error (cpa : Cpa) (ownerKey vaultAddr : Pubkey)
    (acct : Option UserVault) (body : UserVault → OpResult) (e : ProgError)
    (h : checkVaultAccess cpa ownerKey vaultAddr acct = .error e) :
    commit acct (guarded cpa ownerKey vaultAddr acct body) = ⟨acct, [], some e⟩ := by
  unfold guarded
  rw [h]
  rfl

/-- A successful validation hands the stored vault to the body. -/
theorem commit_guarded_ok (cpa : Cpa) (ownerKey vaultAddr : Pubkey)
    (acct : Option UserVault) (body : UserVault → OpResult) (v : UserVault)
    (h : checkVaultAccess cpa ownerKey vaultAddr acct = .ok v) :
    commit acct (guarded cpa ownerKey vaultAddr acct body) = commit acct (body v) := by
  unfold guarded
  rw [h]

/-! ## Claims -/

/-- Claim C4: for every vault-mutating or custody-moving operation, a caller
that differs from the stored owner, or a supplied vault address that does not
re-derive from the fixed seed, the owner identity and the stored bump, makes
the operation fail — with `UnauthorizedAccess` when the address re-derives,
with the address-mismatch error `ConstraintSeeds` otherwise — leaving the
vault account unchanged and performing no external call. -/
theorem unauthorized_or_mismatch_rejected (cpa : Cpa) (ownerKey vaultAddr : Pubkey)
    (v : UserVault) (s : Step)
    (h : v.owner ≠ ownerKey ∨
      cpa [VAULT_SEED, ownerKey.bytes, [v.bump]] PROGRAM_ID ≠ some vaultAddr) :
    ∃ e, commit (some v) (stepOp cpa ownerKey vaultAddr (some v) s) =
        ⟨some v, [], some e⟩ ∧
      ((cpa [VAULT_SEED, ownerKey.bytes, [v.bump]] PROGRAM_ID = some vaultAddr ∧
          e = .vaultError .UnauthorizedAccess) ∨
       (cpa [VAULT_SEED, ownerKey.bytes, [v.bump]] PROGRAM_ID ≠ some vaultAddr ∧
          e = .constraintSeeds)) := by
  obtain ⟨e, he, hd⟩ := checkVaultAccess_reject cpa ownerKey vaultAddr v h
  refine ⟨e, ?_, hd⟩
  cases s <;>
    simp only [stepOp, deposit_domain, withdraw_domain, deposit_unwrapped_domain,
      withdraw_unwrapped_domain, deposit_domain_with_record,
      init_vault_token_account] <;>
    exact commit_guarded_error _ _ _ _ _ _ he

/-- Witness for C4: a concrete vault whose stored owner is not the caller is
rejected with `UnauthorizedAccess` and no external call. -/
theorem unauthorized_or_mismatch_rejected_witness :
    commit (some vBadW) (stepOp cpaW okW vaW (some vBadW)
        (Step.depositUnwrapped oracleW (pkW 3))) =
      ⟨some vBadW, [], some (.vaultError .UnauthorizedAccess)⟩ := by
  obtain ⟨e, he, hd⟩ := unauthorized_or_mismatch_rejected cpaW okW vaW vBadW
    (Step.depositUnwrapped oracleW (pkW 3)) (Or.inl (by decide))
  rcases hd with ⟨-, rfl⟩ | ⟨hne, -⟩
  · exact he
  · exact absurd (by decide) hne

/-- Claim C8: `initialize_vault` for an owner with no existing vault
allocates the vault at the canonical PDA of the fixed seed and the owner
identity, setting `owner` to the caller, storing the bump and zeroing
`domains_count`; a second initialization for the same owner fails with the
already-in-use error and leaves the existing vault untouched. -/
theorem initialize_vault_lifecycle (fpa : Fpa) (ownerKey : Pubkey)
    (v : UserVault) :
    commit none (initialize_vault fpa ownerKey
        (fpa [VAULT_SEED, ownerKey.bytes] PROGRAM_ID).1 none) =
      ⟨some ⟨ownerKey, (fpa [VAULT_SEED, ownerKey.bytes] PROGRAM_ID).2, 0⟩,
        [], none⟩ ∧
    commit (some v) (initialize_vault fpa ownerKey
        (fpa [VAULT_SEED, ownerKey.bytes] PROGRAM_ID).1 (some v)) =
      ⟨some v, [], some .accountAlreadyInUse⟩ := by
  constructor <;> simp [initialize_vault, commit]

/-- Claim C9: in both withdrawal entry points the `checked_sub(1).unwrap()`
can never hit its panic branch: the `NoDomains` guard makes the `None` case
of the subtraction unreachable, so no run ends in the arithmetic panic. -/
theorem withdraw_decrement_no_panic (cpa : Cpa) (oracle : Oracle)
    (ownerKey vaultAddr mintKey userTokenAccount vaultTokenAccount
      tokenProgramKey nameAccount : Pubkey) (acct : Option UserVault) :
    ((commit acct (withdraw_domain cpa oracle ownerKey vaultAddr mintKey
        userTokenAccount vaultTokenAccount tokenProgramKey acct)).err =
      some ProgError.arithmeticPanic) = False ∧
    ((commit acct (withdraw_unwrapped_domain cpa oracle ownerKey vaultAddr
        nameAccount acct)).err = some ProgError.arithmeticPanic) = False := by
  constructor <;> refine eq_false ?_ <;> intro hpanic
  · rcases hacc : checkVaultAccess cpa ownerKey vaultAddr acct with e | v
    · rw [withdraw_domain, commit_guarded_error _ _ _ _ _ _ hacc] at hpanic
      injection hpanic with hpanic
      exact checkVaultAccess_error_ne_panic _ _ _ _ _ hacc hpanic
    · rw [withdraw_domain, commit_guarded_ok _ _ _ _ _ _ hacc] at hpanic
      by_cases hz : 0 < v.domains_count
      · have hs : checkedSub v.domains_count 1 = some (v.domains_count - 1) := by
          unfold checkedSub
          rw [if_pos (by omega)]
        rcases h0 : oracle 0 with _ | code <;>
          simp [h0, hz, hs, commit] at hpanic
      · simp [hz, commit] at hpanic
  · rcases hacc : checkVaultAccess cpa ownerKey vaultAddr acct with e | v
    · rw [withdraw_unwrapped_domain, commit_guarded_error _ _ _ _ _ _ hacc]
        at hpanic
      injection hpanic with hpanic
      exact checkVaultAccess_error_ne_panic _ _ _ _ _ hacc hpanic
    · rw [withdraw_unwrapped_domain, commit_guarded_ok _ _ _ _ _ _ hacc]
        at hpanic
      by_cases hz : 0 < v.domains_count
      · have hs : checkedSub v.domains_count 1 = some (v.domains_count - 1) := by
          unfold checkedSub
          rw [if_pos (by omega)]
        rcases h0 : oracle 0 with _ | code <;>
          simp [h0, hz, hs, commit] at hpanic
      · simp [hz, commit] at hpanic

/-- Claim C10: a successful `init_vault_token_account` leaves the vault
account exactly as it was: owner, bump and `domains_count` unchanged. -/
theorem init_token_account_preserves_vault (cpa : Cpa) (oracle : Oracle)
    (ownerKey vaultAddr tokenMint vaultTokenAccount tokenProgramKey : Pubkey)
    (v : UserVault)
    (hok : (commit (some v) (init_vault_token_account cpa oracle ownerKey
        vaultAddr tokenMint vaultTokenAccount tokenProgramKey (some v))).err =
      none) :
    (commit (some v) (init_vault_token_account cpa oracle ownerKey vaultAddr
        tokenMint vaultTokenAccount tokenProgramKey (some v))).vault = some v := by
  rcases hacc : checkVaultAccess cpa ownerKey vaultAddr (some v) with e | w
  · rw [init_vault_token_account, commit_guarded_error _ _ _ _ _ _ hacc] at hok ⊢
  · have hw := checkVaultAccess_some_eq cpa ownerKey vaultAddr v w hacc
    subst hw
    rw [init_vault_token_account, commit_guarded_ok _ _ _ _ _ _ hacc] at hok ⊢
    rcases h0 : oracle 0 with _ | code
    · simp [h0, commit]
    · rw [h0] at hok
      exact absurd hok (by simp [commit])

/-- Witness for C10: a concrete successful token-account initialization
returns the vault unchanged. -/
theorem init_token_account_preserves_vault_witness :
    (commit (some vOkW) (init_vault_token_account cpaW oracleW okW vaW (pkW 6)
        (pkW 8) (pkW 9) (some vOkW))).vault = some vOkW :=
  init_token_account_preserves_vault cpaW oracleW okW vaW (pkW 6) (pkW 8)
    (pkW 9) vOkW (by decide)

/-- A well-formed empty vault (zero domains in custody). -/
def vZeroW : UserVault := ⟨okW, 7, 0⟩

/-- Inversion for a successful checked addition. -/
theorem checkedAdd_some (x y n : Nat) (h : checkedAdd x y = some n) :
    n = x + y ∧ x + y ≤ U64_MAX := by
  by_cases hle : x + y ≤ U64_MAX
  · unfold checkedAdd at h
    rw [if_pos hle] at h
    injection h with h
    exact ⟨h.symm, hle⟩
  · unfold checkedAdd at h
    rw [if_neg hle] at h
    cases h

/-- Inversion for a successful checked subtraction. -/
theorem checkedSub_some (x y n : Nat) (h : checkedSub x y = some n) :
    n = x - y ∧ y ≤ x := by
  by_cases hle : y ≤ x
  · unfold checkedSub at h
    rw [if_pos hle] at h
    injection h with h
    exact ⟨h.symm, hle⟩
  · unfold checkedSub at h
    rw [if_neg hle] at h
    cases h

/-- Claim C6: withdrawing from a vault holding zero domains fails with
`NoDomains` before any external call is made, for both withdrawal entry
points, and the vault (hence its zero counter) is left unchanged. -/
theorem withdraw_empty_vault_rejected (cpa : Cpa) (oracle : Oracle)
    (ownerKey vaultAddr mintKey userTokenAccount vaultTokenAccount
      tokenProgramKey nameAccount : Pubkey) (v : UserVault)
    (hacc : checkVaultAccess cpa ownerKey vaultAddr (some v) = .ok v)
    (hz : v.domains_count = 0) :
    commit (some v) (withdraw_domain cpa oracle ownerKey vaultAddr mintKey
        userTokenAccount vaultTokenAccount tokenProgramKey (some v)) =
      ⟨some v, [], some (.vaultError .NoDomains)⟩ ∧
    commit (some v) (withdraw_unwrapped_domain cpa oracle ownerKey vaultAddr
        nameAccount (some v)) =
      ⟨some v, [], some (.vaultError .NoDomains)⟩ := by
  constructor
  · rw [withdraw_domain, commit_guarded_ok _ _ _ _ _ _ hacc]
    simp [hz, commit]
  · rw [withdraw_unwrapped_domain, commit_guarded_ok _ _ _ _ _ _ hacc]
    simp [hz, commit]

/-- Witness for C6: a concrete empty vault rejects `withdraw_domain` with
`NoDomains` and no external call. -/
theorem withdraw_empty_vault_rejected_witness :
    commit (some vZeroW) (withdraw_domain cpaW oracleW okW vaW (pkW 6) (pkW 7)
        (pkW 8) (pkW 9) (some vZeroW)) =
      ⟨some vZeroW, [], some (.vaultError .NoDomains)⟩ :=
  (withdraw_empty_vault_rejected cpaW oracleW okW vaW (pkW 6) (pkW 7) (pkW 8)
    (pkW 9) (pkW 3) vZeroW rfl rfl).1

/-- Claim C7: the unwrapped deposit and withdrawal each send the
name-registry service the instruction `[2] ++ new_owner` (one opcode byte
then the 32-byte new-owner key) with account list
`[name_account (writable, non-signer), current_owner (read-only, signer)]`;
the deposit names the vault as new owner with the user signing ordinarily,
the withdrawal names the user as new owner with the vault signing as current
owner through its derivation-proof seed group. -/
theorem registry_transfer_shape (cpa : Cpa) (oracle : Oracle)
    (ownerKey vaultAddr nameAccount : Pubkey) (v : UserVault)
    (hacc : checkVaultAccess cpa ownerKey vaultAddr (some v) = .ok v)
    (hpos : 0 < v.domains_count)
    (hvLen : vaultAddr.bytes.length = 32)
    (hoLen : ownerKey.bytes.length = 32) :
    (commit (some v) (deposit_unwrapped_domain cpa oracle ownerKey vaultAddr
        nameAccount (some v))).calls =
      [ExtCall.invoke (nameTransferIx nameAccount vaultAddr ownerKey)] ∧
    (commit (some v) (withdraw_unwrapped_domain cpa oracle ownerKey vaultAddr
        nameAccount (some v))).calls =
      [ExtCall.invokeSigned (nameTransferIx nameAccount ownerKey vaultAddr)
        (signerSeedsFor ownerKey v.bump)] ∧
    ∀ newOwner currentOwner : Pubkey,
      (nameTransferIx nameAccount newOwner currentOwner).program_id =
          NAME_SERVICE_PROGRAM_ID ∧
      (nameTransferIx nameAccount newOwner currentOwner).data =
          2 :: newOwner.bytes ∧
      (nameTransferIx nameAccount newOwner currentOwner).accounts =
          [⟨nameAccount, false, true⟩, ⟨currentOwner, true, false⟩] := by
  refine ⟨?_, ?_, fun newOwner currentOwner => ⟨rfl, rfl, rfl⟩⟩
  · rw [deposit_unwrapped_domain, commit_guarded_ok _ _ _ _ _ _ hacc]
    rcases h0 : oracle 0 with _ | code
    · rcases hca : checkedAdd v.domains_count 1 with _ | n <;>
        simp [h0, hca, commit]
    · simp [h0, commit]
  · rw [withdraw_unwrapped_domain, commit_guarded_ok _ _ _ _ _ _ hacc]
    rcases h0 : oracle 0 with _ | code
    · rcases hcs : checkedSub v.domains_count 1 with _ | n <;>
        simp [h0, hcs, hpos, commit]
    · simp [h0, hpos, commit]

/-- Witness for C7: the concrete registry-transfer calls of the unwrapped
deposit on a vault holding three domains. -/
theorem registry_transfer_shape_witness :
    (commit (some vOkW) (deposit_unwrapped_domain cpaW oracleW okW vaW (pkW 3)
        (some vOkW))).calls =
      [ExtCall.invoke (nameTransferIx (pkW 3) vaW okW)] :=
  (registry_transfer_shape cpaW oracleW okW vaW (pkW 3) vOkW rfl
    (by decide) (by decide) (by decide)).1

/-- When all four CPIs succeed, `deposit_domain_with_record` issues exactly
the four protocol calls in order: ownership transfer, allocate-and-post,
write-ROA, validate — the last three signed with the vault's seed group. -/
theorem recordOutcome_success_calls (cpa : Cpa) (oracle : Oracle)
    (ownerKey vaultAddr nameAccount solRecord centralState : Pubkey)
    (v : UserVault)
    (hacc : checkVaultAccess cpa ownerKey vaultAddr (some v) = .ok v)
    (h0 : oracle 0 = none) (h1 : oracle 1 = none) (h2 : oracle 2 = none)
    (h3 : oracle 3 = none) :
    (recordOutcome cpa oracle ownerKey vaultAddr nameAccount solRecord
        centralState (some v)).calls =
      [ExtCall.invoke (nameTransferIx nameAccount vaultAddr ownerKey),
       ExtCall.invokeSigned (allocateRecordIx ownerKey solRecord nameAccount
         vaultAddr centralState) (signerSeedsFor ownerKey v.bump),
       ExtCall.invokeSigned (writeRoaIx ownerKey solRecord nameAccount
         vaultAddr centralState) (signerSeedsFor ownerKey v.bump),
       ExtCall.invokeSigned (validateIx ownerKey solRecord nameAccount
         vaultAddr centralState) (signerSeedsFor ownerKey v.bump)] := by
  rw [recordOutcome, deposit_domain_with_record,
    commit_guarded_ok _ _ _ _ _ _ hacc]
  rcases hca : checkedAdd v.domains_count 1 with _ | n <;>
    simp [h0, h1, h2, h3, hca, commit]

/-- Claim C1: `deposit_domain_with_record` increments `domains_count` by
exactly one precisely when all four external calls succeed in order; when
the first failing call fails with some code, the operation reports that
failure and the vault — in particular `domains_count` — is unchanged. -/
theorem deposit_with_record_atomic (cpa : Cpa) (oracle : Oracle)
    (ownerKey vaultAddr nameAccount solRecord centralState : Pubkey)
    (v : UserVault)
    (hacc : checkVaultAccess cpa ownerKey vaultAddr (some v) = .ok v) :
    ((∀ k, k < 4 → oracle k = none) → v.domains_count + 1 ≤ U64_MAX →
      (recordOutcome cpa oracle ownerKey vaultAddr nameAccount solRecord
          centralState (some v)).err = none ∧
      (recordOutcome cpa oracle ownerKey vaultAddr nameAccount solRecord
          centralState (some v)).vault =
        some { v with domains_count := v.domains_count + 1 }) ∧
    ((recordOutcome cpa oracle ownerKey vaultAddr nameAccount solRecord
        centralState (some v)).err = none →
      (∀ k, k < 4 → oracle k = none) ∧
      (recordOutcome cpa oracle ownerKey vaultAddr nameAccount solRecord
          centralState (some v)).vault =
        some { v with domains_count := v.domains_count + 1 }) ∧
    (∀ k code, k < 4 → (∀ j, j < k → oracle j = none) →
      oracle k = some code →
      (recordOutcome cpa oracle ownerKey vaultAddr nameAccount solRecord
          centralState (some v)).err = some (.externalFailure code) ∧
      (recordOutcome cpa oracle ownerKey vaultAddr nameAccount solRecord
          centralState (some v)).vault = some v) := by
  refine ⟨?_, ?_, ?_⟩
  · intro hall hov
    have e0 := hall 0 (by omega)
    have e1 := hall 1 (by omega)
    have e2 := hall 2 (by omega)
    have e3 := hall 3 (by omega)
    rw [recordOutcome, deposit_domain_with_record,
      commit_guarded_ok _ _ _ _ _ _ hacc]
    simp [e0, e1, e2, e3, checkedAdd, hov, commit]
  · intro herr
    rw [recordOutcome, deposit_domain_with_record,
      commit_guarded_ok _ _ _ _ _ _ hacc] at herr
    rcases h0 : oracle 0 with _ | c0
    swap
    · rw [h0] at herr
      simp [commit] at herr
    rw [h0] at herr
    rcases h1 : oracle 1 with _ | c1
    swap
    · rw [h1] at herr
      simp [commit] at herr
    rw [h1] at herr
    rcases h2 : oracle 2 with _ | c2
    swap
    · rw [h2] at herr
      simp [commit] at herr
    rw [h2] at herr
    rcases h3 : oracle 3 with _ | c3
    swap
    · rw [h3] at herr
      simp [commit] at herr
    rw [h3] at herr
    rcases hca : checkedAdd v.domains_count 1 with _ | n
    · rw [hca] at herr
      simp [commit] at herr
    obtain ⟨hn, -⟩ := checkedAdd_some _ _ _ hca
    subst hn
    constructor
    · intro k hk
      interval_cases k
      · exact h0
      · exact h1
      · exact h2
      · exact h3
    · rw [recordOutcome, deposit_domain_with_record,
        commit_guarded_ok _ _ _ _ _ _ hacc]
      simp [h0, h1, h2, h3, hca, commit]
  · intro k code hk hprev hke
    rw [recordOutcome, deposit_domain_with_record,
      commit_guarded_ok _ _ _ _ _ _ hacc]
    interval_cases k
    · simp [hke, commit]
    · have e0 := hprev 0 (by omega)
      simp [e0, hke, commit]
    · have e0 := hprev 0 (by omega)
      have e1 := hprev 1 (by omega)
      simp [e0, e1, hke, commit]
    · have e0 := hprev 0 (by omega)
      have e1 := hprev 1 (by omega)
      have e2 := hprev 2 (by omega)
      simp [e0, e1, e2, hke, commit]

/-- Witness for C1: with a concrete oracle failing at the third call with
code 42, the record deposit reports that failure and keeps the vault. -/
theorem deposit_with_record_atomic_witness :
    (recordOutcome cpaW oracleFail2W okW vaW (pkW 3) (pkW 4) (pkW 5)
        (some vOkW)).err = some (.externalFailure 42) ∧
    (recordOutcome cpaW oracleFail2W okW vaW (pkW 3) (pkW 4) (pkW 5)
        (some vOkW)).vault = some vOkW :=
  (deposit_with_record_atomic cpaW oracleFail2W okW vaW (pkW 3) (pkW 4)
    (pkW 5) vOkW rfl).2.2 2 42 (by omega)
    (fun j hj => by interval_cases j <;> rfl) rfl

/-- Claim C2: the second protocol call posts the resolution record with
payload `[1][len=4 LE][record name][len=32 LE][vault address]`, its account
list holds both the user and the vault as signers, and every call after the
first is signed by the vault through its derivation-proof seed group, the
vault appearing as a signer in each of their account lists. -/
theorem allocate_record_step_shape (cpa : Cpa) (oracle : Oracle)
    (ownerKey vaultAddr nameAccount solRecord centralState : Pubkey)
    (v : UserVault)
    (hacc : checkVaultAccess cpa ownerKey vaultAddr (some v) = .ok v)
    (h0 : oracle 0 = none) (h1 : oracle 1 = none) (h2 : oracle 2 = none)
    (h3 : oracle 3 = none) (hvLen : vaultAddr.bytes.length = 32) :
    (recordOutcome cpa oracle ownerKey vaultAddr nameAccount solRecord
        centralState (some v)).calls[1]? =
      some (ExtCall.invokeSigned (allocateRecordIx ownerKey solRecord
        nameAccount vaultAddr centralState) (signerSeedsFor ownerKey v.bump)) ∧
    (allocateRecordIx ownerKey solRecord nameAccount vaultAddr
        centralState).data =
      [1] ++ u32le 4 ++ SOL_RECORD_NAME ++ u32le 32 ++ vaultAddr.bytes ∧
    (∃ m ∈ (allocateRecordIx ownerKey solRecord nameAccount vaultAddr
        centralState).accounts, m.pubkey = ownerKey ∧ m.isSigner = true) ∧
    (∃ m ∈ (allocateRecordIx ownerKey solRecord nameAccount vaultAddr
        centralState).accounts, m.pubkey = vaultAddr ∧ m.isSigner = true) ∧
    (∀ c ∈ ((recordOutcome cpa oracle ownerKey vaultAddr nameAccount solRecord
        centralState (some v)).calls).drop 1,
      ∃ ix, c = ExtCall.invokeSigned ix (signerSeedsFor ownerKey v.bump) ∧
        ∃ m ∈ ix.accounts, m.pubkey = vaultAddr ∧ m.isSigner = true) := by
  rw [recordOutcome_success_calls cpa oracle ownerKey vaultAddr nameAccount
    solRecord centralState v hacc h0 h1 h2 h3]
  refine ⟨rfl, ?_, ?_, ?_, ?_⟩
  · simp [allocateRecordIx, SOL_RECORD_NAME, hvLen]
  · exact ⟨AccountMeta.new ownerKey true,
      by simp [allocateRecordIx], rfl, rfl⟩
  · exact ⟨AccountMeta.new vaultAddr true,
      by simp [allocateRecordIx], rfl, rfl⟩
  · intro c hc
    simp only [List.drop, List.mem_cons, List.not_mem_nil, or_false] at hc
    rcases hc with rfl | rfl | rfl
    · exact ⟨_, rfl, AccountMeta.new vaultAddr true,
        by simp [allocateRecordIx], rfl, rfl⟩
    · exact ⟨_, rfl, AccountMeta.new vaultAddr true,
        by simp [writeRoaIx], rfl, rfl⟩
    · exact ⟨_, rfl, AccountMeta.new vaultAddr true,
        by simp [validateIx], rfl, rfl⟩

/-- Witness for C2: the concrete allocate-and-post payload for the concrete
vault address. -/
theorem allocate_record_step_shape_witness :
    (allocateRecordIx okW (pkW 4) (pkW 3) vaW (pkW 5)).data =
      [1] ++ u32le 4 ++ SOL_RECORD_NAME ++ u32le 32 ++ vaW.bytes :=
  (allocate_record_step_shape cpaW oracleW okW vaW (pkW 3) (pkW 4) (pkW 5)
    vOkW rfl rfl rfl rfl rfl (by decide)).2.1

/-- Claim C3: the third protocol call writes the association proof with
payload `[6][len=32 LE][vault address]`, the fourth validates with payload
`[3][1]` (staleness flag set), and in the fourth call's account list the
vault's derived address appears twice: at position 5 (domain owner) as a
non-signer and at position 7 (verifier) as a signer. -/
theorem roa_validate_step_shape (cpa : Cpa) (oracle : Oracle)
    (ownerKey vaultAddr nameAccount solRecord centralState : Pubkey)
    (v : UserVault)
    (hacc : checkVaultAccess cpa ownerKey vaultAddr (some v) = .ok v)
    (h0 : oracle 0 = none) (h1 : oracle 1 = none) (h2 : oracle 2 = none)
    (h3 : oracle 3 = none) (hvLen : vaultAddr.bytes.length = 32) :
    (recordOutcome cpa oracle ownerKey vaultAddr nameAccount solRecord
        centralState (some v)).calls[2]? =
      some (ExtCall.invokeSigned (writeRoaIx ownerKey solRecord nameAccount
        vaultAddr centralState) (signerSeedsFor ownerKey v.bump)) ∧
    (writeRoaIx ownerKey solRecord nameAccount vaultAddr centralState).data =
      [6] ++ u32le 32 ++ vaultAddr.bytes ∧
    (recordOutcome cpa oracle ownerKey vaultAddr nameAccount solRecord
        centralState (some v)).calls[3]? =
      some (ExtCall.invokeSigned (validateIx ownerKey solRecord nameAccount
        vaultAddr centralState) (signerSeedsFor ownerKey v.bump)) ∧
    (validateIx ownerKey solRecord nameAccount vaultAddr centralState).data =
      [3, 1] ∧
    (validateIx ownerKey solRecord nameAccount vaultAddr
        centralState).accounts[5]? = some (AccountMeta.new vaultAddr false) ∧
    (validateIx ownerKey solRecord nameAccount vaultAddr
        centralState).accounts[7]? = some (AccountMeta.new vaultAddr true) := by
  rw [recordOutcome_success_calls cpa oracle ownerKey vaultAddr nameAccount
    solRecord centralState v hacc h0 h1 h2 h3]
  exact ⟨rfl, by simp [writeRoaIx], rfl, rfl, rfl, rfl⟩

/-- Witness for C3: the concrete write-ROA payload for the concrete vault
address. -/
theorem roa_validate_step_shape_witness :
    (writeRoaIx okW (pkW 4) (pkW 3) vaW (pkW 5)).data =
      [6] ++ u32le 32 ++ vaW.bytes :=
  (roa_validate_step_shape cpaW oracleW okW vaW (pkW 3) (pkW 4) (pkW 5)
    vOkW rfl rfl rfl rfl rfl (by decide)).2.1

/-- No entry point is both a deposit and a withdrawal. -/
theorem stepIsWithdraw_of_deposit (s : Step) (h : stepIsDeposit s = true) :
    stepIsWithdraw s = false := by
  cases s <;> simp [stepIsDeposit, stepIsWithdraw] at h ⊢

/-- No entry point is both a withdrawal and a deposit. -/
theorem stepIsDeposit_of_withdraw (s : Step) (h : stepIsWithdraw s = true) :
    stepIsDeposit s = false := by
  cases s <;> simp [stepIsDeposit, stepIsWithdraw] at h ⊢

/-- Case analysis for one committed entry-point invocation on a present
vault: either it fails and the vault is rolled back unchanged, or it
succeeds and the vault keeps its owner and bump while `domains_count` moves
by exactly one for a deposit (without leaving the `u64` range), by exactly
minus one for a withdrawal, and not at all otherwise. -/
theorem step_outcome (cpa : Cpa) (ownerKey vaultAddr : Pubkey) (v : UserVault)
    (s : Step) :
    ((commit (some v) (stepOp cpa ownerKey vaultAddr (some v) s)).err.isSome
        = true ∧
     (commit (some v) (stepOp cpa ownerKey vaultAddr (some v) s)).vault
        = some v) ∨
    ((commit (some v) (stepOp cpa ownerKey vaultAddr (some v) s)).err = none ∧
     ∃ v', (commit (some v) (stepOp cpa ownerKey vaultAddr (some v) s)).vault
          = some v' ∧
       v'.owner = v.owner ∧ v'.bump = v.bump ∧
       (if stepIsDeposit s then
          v'.domains_count = v.domains_count + 1 ∧
            v.domains_count + 1 ≤ U64_MAX
        else if stepIsWithdraw s then
          v.domains_count = v'.domains_count + 1
        else v' = v)) := by
  rcases hacc : checkVaultAccess cpa ownerKey vaultAddr (some v) with e | w
  · left
    cases s <;>
      simp only [stepOp, deposit_domain, withdraw_domain,
        deposit_unwrapped_domain, withdraw_unwrapped_domain,
        deposit_domain_with_record, init_vault_token_account] <;>
      rw [commit_guarded_error _ _ _ _ _ _ hacc] <;>
      exact ⟨rfl, rfl⟩
  · rw [checkVaultAccess_some_eq cpa ownerKey vaultAddr v w hacc] at hacc
    cases s with
    | depositWrapped o m u t tp =>
      simp only [stepOp, deposit_domain]
      rw [commit_guarded_ok _ _ _ _ _ _ hacc]
      rcases h0 : o 0 with _ | code
      · rcases hca : checkedAdd v.domains_count 1 with _ | n
        · exact Or.inl (by simp [h0, hca, commit])
        · obtain ⟨hn, hle⟩ := checkedAdd_some _ _ _ hca
          subst hn
          exact Or.inr ⟨by simp [h0, hca, commit],
            { v with domains_count := v.domains_count + 1 },
            by simp [h0, hca, commit], rfl, rfl, ⟨rfl, hle⟩⟩
      · exact Or.inl (by simp [h0, commit])
    | withdrawWrapped o m u t tp =>
      simp only [stepOp, withdraw_domain]
      rw [commit_guarded_ok _ _ _ _ _ _ hacc]
      by_cases hz : 0 < v.domains_count
      · rcases h0 : o 0 with _ | code
        · have hs : checkedSub v.domains_count 1 =
              some (v.domains_count - 1) := by
            unfold checkedSub
            rw [if_pos (by omega)]
          refine Or.inr ⟨by simp [h0, hz, hs, commit],
            { v with domains_count := v.domains_count - 1 },
            by simp [h0, hz, hs, commit], rfl, rfl, ?_⟩
          show v.domains_count = v.domains_count - 1 + 1
          omega
        · exact Or.inl (by simp [h0, hz, commit])
      · exact Or.inl (by simp [hz, commit])
    | depositUnwrapped o n =>
      simp only [stepOp, deposit_unwrapped_domain]
      rw [commit_guarded_ok _ _ _ _ _ _ hacc]
      rcases h0 : o 0 with _ | code
      · rcases hca : checkedAdd v.domains_count 1 with _ | nn
        · exact Or.inl (by simp [h0, hca, commit])
        · obtain ⟨hn, hle⟩ := checkedAdd_some _ _ _ hca
          subst hn
          exact Or.inr ⟨by simp [h0, hca, commit],
            { v with domains_count := v.domains_count + 1 },
            by simp [h0, hca, commit], rfl, rfl, ⟨rfl, hle⟩⟩
      · exact Or.inl (by simp [h0, commit])
    | withdrawUnwrapped o n =>
      simp only [stepOp, withdraw_unwrapped_domain]
      rw [commit_guarded_ok _ _ _ _ _ _ hacc]
      by_cases hz : 0 < v.domains_count
      · rcases h0 : o 0 with _ | code
        · have hs : checkedSub v.domains_count 1 =
              some (v.domains_count - 1) := by
            unfold checkedSub
            rw [if_pos (by omega)]
          refine Or.inr ⟨by simp [h0, hz, hs, commit],
            { v with domains_count := v.domains_count - 1 },
            by simp [h0, hz, hs, commit], rfl, rfl, ?_⟩
          show v.domains_count = v.domains_count - 1 + 1
          omega
        · exact Or.inl (by simp [h0, hz, commit])
      · exact Or.inl (by simp [hz, commit])
    | depositWithRecord o n sr cs =>
      simp only [stepOp, deposit_domain_with_record]
      rw [commit_guarded_ok _ _ _ _ _ _ hacc]
      rcases h0 : o 0 with _ | c0
      swap
      · exact Or.inl (by simp [h0, commit])
      rcases h1 : o 1 with _ | c1
      swap
      · exact Or.inl (by simp [h0, h1, commit])
      rcases h2 : o 2 with _ | c2
      swap
      · exact Or.inl (by simp [h0, h1, h2, commit])
      rcases h3 : o 3 with _ | c3
      swap
      · exact Or.inl (by simp [h0, h1, h2, h3, commit])
      rcases hca : checkedAdd v.domains_count 1 with _ | nn
      · exact Or.inl (by simp [h0, h1, h2, h3, hca, commit])
      · obtain ⟨hn, hle⟩ := checkedAdd_some _ _ _ hca
        subst hn
        exact Or.inr ⟨by simp [h0, h1, h2, h3, hca, commit],
          { v with domains_count := v.domains_count + 1 },
          by simp [h0, h1, h2, h3, hca, commit], rfl, rfl, ⟨rfl, hle⟩⟩
    | initTokenAccount o m t tp =>
      simp only [stepOp, init_vault_token_account]
      rw [commit_guarded_ok _ _ _ _ _ _ hacc]
      rcases h0 : o 0 with _ | code
      · exact Or.inr ⟨by simp [h0, commit], v, by simp [h0, commit],
          rfl, rfl, rfl⟩
      · exact Or.inl (by simp [h0, commit])

/-- Running any step sequence from a present vault keeps the vault present,
preserves owner and bump, and keeps
`domains_count + withdrawals = initial count + deposits`. -/
theorem runSteps_spec (cpa : Cpa) (ownerKey vaultAddr : Pubkey)
    (steps : List Step) (v : UserVault) :
    ∃ v' d w, runSteps cpa ownerKey vaultAddr (some v) steps =
        (some v', d, w) ∧
      v'.domains_count + w = v.domains_count + d ∧
      v'.owner = v.owner ∧ v'.bump = v.bump := by
  induction steps generalizing v with
  | nil => exact ⟨v, 0, 0, rfl, by omega, rfl, rfl⟩
  | cons s rest ih =>
    rcases step_outcome cpa ownerKey vaultAddr v s with
      ⟨hs, hv⟩ | ⟨hs, v1, hv, hoE, hbE, hcnt⟩
    · obtain ⟨e, he⟩ := Option.isSome_iff_exists.mp hs
      obtain ⟨v', d, w, hr, hinv, hoE, hbE⟩ := ih v
      refine ⟨v', d, w, ?_, hinv, hoE, hbE⟩
      simp only [runSteps]
      rw [he, hv]
      exact hr
    · obtain ⟨v', d, w, hr, hinv, hoE2, hbE2⟩ := ih v1
      by_cases hd : stepIsDeposit s
      · have hwd := stepIsWithdraw_of_deposit s hd
        rw [if_pos hd] at hcnt
        refine ⟨v', d + 1, w, ?_, by omega, hoE2.trans hoE, hbE2.trans hbE⟩
        simp only [runSteps]
        rw [hs, hv, hr]
        simp [hd, hwd]
      · by_cases hwd : stepIsWithdraw s
        · rw [if_neg hd, if_pos hwd] at hcnt
          refine ⟨v', d, w + 1, ?_, by omega, hoE2.trans hoE, hbE2.trans hbE⟩
          simp only [runSteps]
          rw [hs, hv, hr]
          simp [hd, hwd]
        · rw [if_neg hd, if_neg hwd] at hcnt
          subst hcnt
          refine ⟨v', d, w, ?_, by omega, hoE2.trans hoE, hbE2.trans hbE⟩
          simp only [runSteps]
          rw [hs, hv, hr]
          simp [hd, hwd]

/-- Claim C5: starting from a freshly initialized vault, after any sequence
of entry-point invocations `domains_count` equals the number of successful
deposits minus the number of successful withdrawals (stated additively over
`Nat`, so the counter can never go negative); every successful custody
operation moves the counter by exactly one in its direction; and a deposit
on a counter already at the `u64` maximum fails loudly, leaving the vault
unchanged, instead of wrapping or saturating. -/
theorem asset_count_invariant (cpa : Cpa) (ownerKey vaultAddr : Pubkey)
    (bump : Nat) :
    (∀ steps : List Step, ∃ v' d w,
      runSteps cpa ownerKey vaultAddr (some ⟨ownerKey, bump, 0⟩) steps =
        (some v', d, w) ∧ v'.domains_count + w = d) ∧
    (∀ (v : UserVault) (s : Step),
      (commit (some v) (stepOp cpa ownerKey vaultAddr (some v) s)).err =
          none →
      ∃ v', (commit (some v) (stepOp cpa ownerKey vaultAddr (some v) s)).vault
          = some v' ∧
        (stepIsDeposit s = true →
          v'.domains_count = v.domains_count + 1) ∧
        (stepIsWithdraw s = true →
          v.domains_count = v'.domains_count + 1)) ∧
    (∀ (v : UserVault) (s : Step), stepIsDeposit s = true →
      v.domains_count = U64_MAX →
      (commit (some v) (stepOp cpa ownerKey vaultAddr (some v) s)).vault
          = some v ∧
      (commit (some v) (stepOp cpa ownerKey vaultAddr (some v) s)).err.isSome
          = true) := by
  refine ⟨?_, ?_, ?_⟩
  · intro steps
    obtain ⟨v', d, w, hr, hinv, -, -⟩ :=
      runSteps_spec cpa ownerKey vaultAddr steps ⟨ownerKey, bump, 0⟩
    exact ⟨v', d, w, hr, by simpa using hinv⟩
  · intro v s herr
    rcases step_outcome cpa ownerKey vaultAddr v s with
      ⟨hs, -⟩ | ⟨-, v1, hv, -, -, hcnt⟩
    · rw [herr] at hs
      cases hs
    · refine ⟨v1, hv, ?_, ?_⟩
      · intro hd
        rw [if_pos hd] at hcnt
        exact hcnt.1
      · intro hwd
        rw [if_neg (by simp [stepIsDeposit_of_withdraw s hwd]),
          if_pos hwd] at hcnt
        exact hcnt
  · intro v s hd hmax
    rcases step_outcome cpa ownerKey vaultAddr v s with
      ⟨hs, hv⟩ | ⟨-, v1, -, -, -, hcnt⟩
    · exact ⟨hv, hs⟩
    · rw [if_pos hd] at hcnt
      rw [hmax] at hcnt
      omega

/-- Witness for C5: a concrete deposit on a vault whose counter sits at the
`u64` maximum aborts and leaves the vault unchanged. -/
theorem asset_count_invariant_witness :
    (commit (some vMaxW) (stepOp cpaW okW vaW (some vMaxW)
        (Step.depositUnwrapped oracleW (pkW 3)))).vault = some vMaxW :=
  ((asset_count_invariant cpaW okW vaW 7).2.2 vMaxW
    (Step.depositUnwrapped oracleW (pkW 3)) rfl rfl).1

end LumenlessVault

